import Mathlib

/-!
Verification development for the iori-nav repository.

The repository has one source file containing two Cloudflare Pages
functions, embedded here as pure Lean functions:

* the config API handler (`onRequestGet` / `onRequestPost` of
  `functions/api/config/index.js`), and
* the homepage renderer (`onRequest` of `functions/index.js`).

The relational store is modelled as lists of rows, the SQL queries as
filters/sorts over those lists, the platform URL parser as scheme
extraction, and the outbound wallpaper-feed fetch as an explicit
outcome value.  JavaScript strings are handled through char-list based
helpers so that every definition evaluates by `decide`.
-/

namespace IoriNav

/-! ### JavaScript string helpers -/

/-- Whitespace characters removed by JavaScript `String.prototype.trim`
(the ASCII ones; the code only ever trims ordinary text). -/
def isWsChar (c : Char) : Bool :=
  c = ' ' || c = '\t' || c = '\n' || c = '\r'

/-- Trim on char lists: drop leading and trailing whitespace. -/
def trimList (cs : List Char) : List Char :=
  ((cs.dropWhile isWsChar).reverse.dropWhile isWsChar).reverse

/-- Model of JavaScript `str.trim()`. -/
def jsTrim (s : String) : String :=
  String.mk (trimList s.toList)

/-- Model of JavaScript `str.toLowerCase()` (ASCII case folding, which
covers every string the handlers lower-case). -/
def lowerStr (s : String) : String :=
  String.mk (s.toList.map Char.toLower)

/-- Model of JavaScript `str.startsWith(p)`. -/
def startsWithStr (s p : String) : Bool :=
  p.toList.isPrefixOf s.toList

/-- Substring test on char lists (used to model SQL `LIKE '%kw%'`). -/
def infixOfList (needle : List Char) : List Char → Bool
  | [] => needle.isPrefixOf []
  | c :: rest => needle.isPrefixOf (c :: rest) || infixOfList needle rest

/-- Model of a case-insensitive substring match, the effective semantics
of SQLite `LIKE '%kw%'` on the text columns involved. -/
def likeContains (hay kw : String) : Bool :=
  infixOfList (lowerStr kw).toList (lowerStr hay).toList

/-- Truthiness of an optional string parameter: JavaScript treats the
absent value and the empty string alike as falsy. -/
def truthyStr : Option String → Option String
  | some s => if s = "" then none else some s
  | none => none

/-! ### Data model

`sites(id, name, url, logo, desc, catelog_id, catelog_name, sort_order,
is_private, create_time)` and `category(id, catelog, is_private,
sort_order)`.  `sort_order` is `Option Int`: `some n` models a stored
value whose JavaScript `Number(...)` conversion is the finite number
`n`, `none` models a value (or `undefined`) converting to `NaN`. -/

structure SiteRow where
  id : Nat
  name : String
  url : String
  logo : Option String
  desc : Option String
  catelog_id : Nat
  catelog_name : String
  sort_order : Option Int
  is_private : Nat
  create_time : Nat
deriving DecidableEq

structure CategoryRow where
  id : Nat
  catelog : String
  is_private : Nat
  sort_order : Option Int
deriving DecidableEq

/-- `normalizeSortOrder` from `functions/index.js` (also used by the
POST handler via `_middleware`): a finite numeric conversion is kept,
anything else falls back to 9999. -/
def normalizeSortOrder : Option Int → Int
  | some n => n
  | none => 9999

/-! ### Config API: GET list operation (`onRequestGet`) -/

/-- The shared `WHERE` clause of the list operation:
`(s.is_private = 0 OR ? = 1)` with the 0/1 `includePrivate` bind,
then `catelogId` (taking precedence) or `catelog_name` equality,
then the four-column keyword `LIKE` filter.  A `NULL` `desc` never
matches a `LIKE` (SQL three-valued logic). -/
def matchesWhere (includePrivate : Nat) (catalogId : Option Nat)
    (catalog keyword : Option String) (s : SiteRow) : Bool :=
  (s.is_private == 0 || includePrivate == 1) &&
  (match catalogId with
   | some cid => s.catelog_id == cid
   | none =>
     match catalog with
     | some c => s.catelog_name == c
     | none => true) &&
  (match keyword with
   | some kw =>
     likeContains s.name kw || likeContains s.url kw ||
     likeContains s.catelog_name kw ||
     (match s.desc with
      | some d => likeContains d kw
      | none => false)
   | none => true)

/-- `ORDER BY sort_order ASC, create_time DESC` (SQL sorts `NULL`
before numbers). -/
def siteLe (a b : SiteRow) : Bool :=
  match a.sort_order, b.sort_order with
  | none, none => b.create_time ≤ a.create_time
  | none, some _ => true
  | some _, none => false
  | some x, some y => x < y || (x == y && b.create_time ≤ a.create_time)

/-- The `total` computation of the list operation (lines 82–88 of the
config handler): when `pageSize ≥ 1000` the count query is skipped and
`total = results.length + offset`, otherwise the count query result is
used. -/
def computeTotal (pageSize offset : Int) (resultsLen countTotal : Nat) : Int :=
  if pageSize ≥ 1000 then (resultsLen : Int) + offset else (countTotal : Int)

structure GetResponse where
  code : Nat
  data : List SiteRow
  total : Int
  page : Int
  pageSize : Int
deriving DecidableEq

/-- `onRequestGet` of the config API.  `catalogId`/`catalog`/`keyword`
are the (truthiness-checked) query parameters, `page`/`pageSize` the
parsed pagination numbers.  `LIMIT`/`OFFSET` semantics: a negative
`OFFSET` reads from the start, a negative `LIMIT` means "no limit".
The count query is issued only in the `pageSize < 1000` branch; here
`computeTotal` simply ignores its argument in the other branch. -/
def onRequestGet (db : List SiteRow) (auth : Bool) (catalogId : Option Nat)
    (catalog keyword : Option String) (page pageSize : Int) : GetResponse :=
  let includePrivate : Nat := if auth then 1 else 0
  let offset : Int := (page - 1) * pageSize
  let filtered := db.filter
    (matchesWhere includePrivate catalogId (truthyStr catalog) (truthyStr keyword))
  let ordered := List.insertionSort (fun a b => siteLe a b = true) filtered
  let afterOffset := ordered.drop offset.toNat
  let results := if pageSize < 0 then afterOffset else afterOffset.take pageSize.toNat
  { code := 200
    data := results
    total := computeTotal pageSize offset results.length filtered.length
    page := page
    pageSize := pageSize }

/-! ### Config API: POST create operation (`onRequestPost`) -/

/-- The JSON request body.  `sort_order` follows the `Number(...)`
convention above; `is_private` records the truthiness of the supplied
value (so `false`, `0`, `null` and an omitted field are all `false`). -/
structure PostBody where
  name : Option String
  url : Option String
  logo : Option String
  desc : Option String
  catelogId : Option Nat
  sort_order : Option Int
  is_private : Bool

inductive PostOutcome where
  | unauthorized
  | badRequest (msg : String)
  | conflict (msg : String)
  | created (row : SiteRow)
deriving DecidableEq

/-- `url.replace(/^https?:\/\//, '').split('/')[0]` — the host part of
the url used for the derived default logo. -/
def stripSchemeDomain (u : String) : String :=
  let stripped :=
    if startsWithStr u "https://" then String.mk (u.toList.drop 8)
    else if startsWithStr u "http://" then String.mk (u.toList.drop 7)
    else u
  (stripped.splitOn "/").headD ""

/-- `onRequestPost` of the config API.  Returns the outcome and the
sites table after the request ( `newId`/`newTime` stand for the
store-assigned id and `create_time` of an inserted row).  `iconAPIEnv`
is `env.ICON_API`, `none` when unset or empty. -/
def onRequestPost (db : List SiteRow) (cats : List CategoryRow) (auth : Bool)
    (iconAPIEnv : Option String) (body : PostBody) (newId newTime : Nat) :
    PostOutcome × List SiteRow :=
  if !auth then (.unauthorized, db) else
  let iconAPI := iconAPIEnv.getD "https://favicon.im/"
  let sanitizedName := jsTrim (body.name.getD "")
  let sanitizedUrl := jsTrim (body.url.getD "")
  let sanitizedLogoInput : Option String :=
    let t := jsTrim (body.logo.getD "")
    if t = "" then none else some t
  let sanitizedDesc : Option String :=
    let t := jsTrim (body.desc.getD "")
    if t = "" then none else some t
  let sortOrderValue := normalizeSortOrder body.sort_order
  let isPrivateValue : Nat := if body.is_private then 1 else 0
  -- `!catelogId` is falsy for an absent id and for the id 0
  if sanitizedName = "" || sanitizedUrl = "" || body.catelogId.getD 0 == 0 then
    (.badRequest "Name, URL and Catelog are required", db)
  else
    -- SELECT id FROM sites WHERE url = ?
    if (db.find? (fun s => s.url == sanitizedUrl)).isSome then
      (.conflict "该 URL 已存在，请勿重复添加", db)
    else
      let rawUrl := body.url.getD ""
      let sanitizedLogo : Option String :=
        if (body.logo.getD "") = "" &&
           (startsWithStr rawUrl "https://" || startsWithStr rawUrl "http://") then
          some (iconAPI ++ stripSchemeDomain rawUrl ++
            (if iconAPIEnv.isNone then "?larger=true" else ""))
        else sanitizedLogoInput
      let cid := body.catelogId.getD 0
      -- SELECT catelog, is_private FROM category WHERE id = ?
      match cats.find? (fun c => c.id == cid) with
      | none => (.badRequest "Category not found.", db)
      | some categoryResult =>
        let finalIsPrivate : Nat :=
          if categoryResult.is_private == 1 then 1 else isPrivateValue
        let row : SiteRow :=
          { id := newId
            name := sanitizedName
            url := sanitizedUrl
            logo := sanitizedLogo
            desc := sanitizedDesc
            catelog_id := cid
            catelog_name := categoryResult.catelog
            sort_order := some sortOrderValue
            is_private := finalIsPrivate
            create_time := newTime }
        (.created row, db ++ [row])

/-! ### Homepage renderer (`onRequest` of `functions/index.js`) -/

/-- A row of the homepage data query: `SELECT s.*, c.catelog FROM sites
s INNER JOIN category c ON s.catelog_id = c.id`. -/
structure HomeSite where
  id : Nat
  name : String
  url : String
  logo : Option String
  desc : Option String
  catelog_id : Nat
  sort_order : Option Int
  is_private : Nat
  create_time : Nat
  catelog : String
deriving DecidableEq

/-- `ORDER BY s.sort_order ASC, s.create_time DESC` for the joined
rows. -/
def homeSiteLe (a b : HomeSite) : Bool :=
  match a.sort_order, b.sort_order with
  | none, none => b.create_time ≤ a.create_time
  | none, some _ => true
  | some _, none => false
  | some x, some y => x < y || (x == y && b.create_time ≤ a.create_time)

/-- One joined row of the homepage query: `s.*` plus `c.catelog`. -/
def joinRow (s : SiteRow) (c : CategoryRow) : HomeSite :=
  { id := s.id, name := s.name, url := s.url, logo := s.logo
    desc := s.desc, catelog_id := s.catelog_id
    sort_order := s.sort_order, is_private := s.is_private
    create_time := s.create_time, catelog := c.catelog }

/-- The homepage data load: inner join of `sites` to `category`,
restricted by `(s.is_private = 0 OR ? = 1)`, ordered. -/
def loadSites (db : List SiteRow) (cats : List CategoryRow) (auth : Bool) :
    List HomeSite :=
  let joined := db.flatMap (fun s =>
    (cats.filter (fun c => c.id == s.catelog_id)).map (joinRow s))
  let visible := joined.filter (fun s => s.is_private == 0 || auth)
  List.insertionSort (fun a b => homeSiteLe a b = true) visible

/-- `(site.catelog || '').trim() || '未分类'` — the display name of a
site's category. -/
def catName (s : HomeSite) : String :=
  let t := jsTrim s.catelog
  if t = "" then "未分类" else t

/-- The `categorySet` of the renderer: distinct category names in
first-appearance order. -/
def categoryNames (sites : List HomeSite) : List String :=
  sites.foldl (fun acc s =>
    if acc.contains (catName s) then acc else acc ++ [catName s]) []

/-- The `categoryIdMap`: id of the first site with a truthy
`catelog_id` under each name. -/
def categoryIdOf (sites : List HomeSite) (name : String) : Option Nat :=
  (sites.find? (fun s => catName s == name && s.catelog_id != 0)).map
    (fun s => s.catelog_id)

/-- The `categoryMinSort` map: minimum normalized `sort_order` among
the sites of a category. -/
def minSortOf (sites : List HomeSite) (name : String) : Option Int :=
  ((sites.filter (fun s => catName s == name)).map
    (fun s => normalizeSortOrder s.sort_order)).min?

/-- The `categoryOrderMap` built from `SELECT catelog, sort_order FROM
category`: a later row with the same name overwrites an earlier one,
so the lookup finds the last occurrence. -/
def orderLookup (catRows : List CategoryRow) (name : String) : Option Int :=
  (catRows.reverse.find? (fun c => c.catelog == name)).map
    (fun c => normalizeSortOrder c.sort_order)

/-- The derived, in-memory `{name, order, fallback, id}` record. -/
structure CatalogMeta where
  name : String
  order : Int
  fallback : Int
  id : Option Nat
deriving DecidableEq

/-- `catalogsWithMeta` before sorting (lines 266–270). -/
def catalogsWithMeta (sites : List HomeSite) (catRows : List CategoryRow) :
    List CatalogMeta :=
  (categoryNames sites).map (fun nm =>
    let fallbackSort :=
      match minSortOf sites nm with
      | some m => m
      | none => 9999
    { name := nm
      order := (orderLookup catRows nm).getD fallbackSort
      fallback := fallbackSort
      id := categoryIdOf sites nm })

/-- The three-level sort comparator (lines 272–276).  `nameCmp` stands
for the locale-aware `a.name.localeCompare(b.name, 'zh-Hans-CN',
{sensitivity: 'base'})`, an external collation left abstract. -/
def catCmp (nameCmp : String → String → Int) (a b : CatalogMeta) : Int :=
  if a.order ≠ b.order then a.order - b.order
  else if a.fallback ≠ b.fallback then a.fallback - b.fallback
  else nameCmp a.name b.name

/-- `catalogsWithMeta.sort(...)` — JavaScript `Array.prototype.sort`
with a consistent comparator is a stable sort by `catCmp ≤ 0`,
modelled by a stable insertion sort. -/
def sortedCatalogs (nameCmp : String → String → Int)
    (sites : List HomeSite) (catRows : List CategoryRow) : List CatalogMeta :=
  List.insertionSort (fun a b => catCmp nameCmp a b ≤ 0)
    (catalogsWithMeta sites catRows)

/-- `const catalogs = catalogsWithMeta.map(item => item.name)` — the
category menu order. -/
def catalogNames (nameCmp : String → String → Int)
    (sites : List HomeSite) (catRows : List CategoryRow) : List String :=
  (sortedCatalogs nameCmp sites catRows).map (fun m => m.name)

/-! ### Catalog selection (lines 281–304) -/

/-- `(catalog || '').trim()`. -/
def requestedRaw (catalogParam : Option String) : String :=
  jsTrim (catalogParam.getD "")

/-- `requestedCatalog.toLowerCase() === 'all'`. -/
def isExplicitAll (catalogParam : Option String) : Bool :=
  lowerStr (requestedRaw catalogParam) == "all"

/-- The resolved catalog name after the explicit-`all` reset and the
`DISPLAY_CATEGORY` default (lines 284–295).  `displayCategory` is
`env.DISPLAY_CATEGORY` (`none` models unset/empty). -/
def resolvedCatalog (catalogs : List String)
    (catalogParam displayCategory : Option String) : String :=
  let r1 := if isExplicitAll catalogParam then "" else requestedRaw catalogParam
  match truthyStr displayCategory with
  | some dcRaw =>
    if r1 == "" && !(isExplicitAll catalogParam) then
      let defaultCat := jsTrim dcRaw
      if catalogs.contains defaultCat then defaultCat else r1
    else r1
  | none => r1

/-- `Boolean(requestedCatalog && catalogs.includes(requestedCatalog))`. -/
def catalogExistsOf (catalogs : List String)
    (catalogParam displayCategory : Option String) : Bool :=
  let r := resolvedCatalog catalogs catalogParam displayCategory
  !(r == "") && catalogs.contains r

/-- `currentCatalog = catalogExists ? requestedCatalog : catalogs[0]`
(`none` models the `undefined` of an empty catalog list). -/
def currentCatalogOf (catalogs : List String)
    (catalogParam displayCategory : Option String) : Option String :=
  if catalogExistsOf catalogs catalogParam displayCategory then
    some (resolvedCatalog catalogs catalogParam displayCategory)
  else catalogs.head?

/-- `currentSites` (lines 299–304): filtered to the current category
when it exists, the full listing otherwise. -/
def currentSitesOf (catalogs : List String) (sites : List HomeSite)
    (catalogParam displayCategory : Option String) : List HomeSite :=
  if catalogExistsOf catalogs catalogParam displayCategory then
    sites.filter (fun s =>
      catName s == resolvedCatalog catalogs catalogParam displayCategory)
  else sites

/-- `headingPlainText` (lines 535–537). -/
def headingOf (catalogs : List String) (sites : List HomeSite)
    (catalogParam displayCategory : Option String) : String :=
  if catalogExistsOf catalogs catalogParam displayCategory then
    let cur := resolvedCatalog catalogs catalogParam displayCategory
    let n := (currentSitesOf catalogs sites catalogParam displayCategory).length
    s!"{cur} · {n} 个网站"
  else s!"全部收藏 · {sites.length} 个网站"

/-- The homepage view state relevant to catalog selection. -/
structure Selection where
  catalogs : List String
  catalogExists : Bool
  currentCatalog : Option String
  currentSites : List HomeSite
  heading : String
deriving DecidableEq

/-- The catalog-selection part of the renderer, over the loaded
`sites` and `category` rows. -/
def homeView (nameCmp : String → String → Int) (sites : List HomeSite)
    (catRows : List CategoryRow)
    (catalogParam displayCategory : Option String) : Selection :=
  let catalogs := catalogNames nameCmp sites catRows
  { catalogs := catalogs
    catalogExists := catalogExistsOf catalogs catalogParam displayCategory
    currentCatalog := currentCatalogOf catalogs catalogParam displayCategory
    currentSites := currentSitesOf catalogs sites catalogParam displayCategory
    heading := headingOf catalogs sites catalogParam displayCategory }

/-! ### Wallpaper rotation (lines 346–380 and 717–719) -/

/-- One entry of the third-party wallpaper feed; the empty string
models an absent/falsy field. -/
structure FeedItem where
  fullUrl : String
  url : String
deriving DecidableEq

/-- Outcome of `fetch(bingUrl)` followed by `res.json()`:
`failed` covers a thrown fetch/json error and a non-ok status,
`notArray` an ok response whose body is not an array, and
`arr items` an ok array body (possibly empty). -/
inductive FetchOutcome where
  | failed
  | notArray
  | arr (items : List FeedItem)
deriving DecidableEq

/-- Digits-to-number, the effect of `parseInt` on a digit string. -/
def digitsToNat (ds : List Char) : Nat :=
  ds.foldl (fun n c => n * 10 + (c.toNat - 48)) 0

/-- First match of the regex `/wallpaper_index=(\d+)/`: scan for the
literal pattern followed by at least one digit, capturing the maximal
digit run. -/
def findWallpaperIdx : List Char → Option Nat
  | [] => none
  | c :: rest =>
    let pat := "wallpaper_index=".toList
    let here := (c :: rest).drop pat.length
    if pat.isPrefixOf (c :: rest) && here.takeWhile Char.isDigit ≠ [] then
      some (digitsToNat (here.takeWhile Char.isDigit))
    else findWallpaperIdx rest

/-- Cookie parse over the `Cookie` header string. -/
def parseWallpaperCookie (cookieHeader : String) : Option Nat :=
  findWallpaperIdx cookieHeader.toList

/-- `const currentWallpaperIndex = match ? parseInt(match[1]) : -1`. -/
def currentIdx (cookieHeader : String) : Int :=
  match parseWallpaperCookie cookieHeader with
  | some n => (n : Int)
  | none => -1

/-- `targetItem.fullUrl || targetItem.url` at a feed position. -/
def targetUrlOf (items : List FeedItem) (i : Nat) : String :=
  match items.get? i with
  | some it => if it.fullUrl ≠ "" then it.fullUrl else it.url
  | none => ""

/-- The `Set-Cookie` value appended at lines 717–719. -/
def cookieStr (n : Nat) : String :=
  s!"wallpaper_index={n}; Path=/; Max-Age=31536000; SameSite=Lax"

structure WallpaperResult where
  nextIndex : Nat
  wallpaper : String
  setCookie : Option String
deriving DecidableEq

/-- The wallpaper-rotation step: `nextWallpaperIndex` starts at 0 and
is advanced only when the feed yields a non-empty array; the custom
wallpaper is replaced only by a truthy target url; the cookie is
appended exactly when the random-wallpaper setting is enabled. -/
def wallpaperStep (enabled : Bool) (cookieHeader : String)
    (fetched : FetchOutcome) (customWallpaper : String) : WallpaperResult :=
  if enabled then
    match fetched with
    | .arr items =>
      if items.length > 0 then
        let next := (currentIdx cookieHeader + 1).toNat % items.length
        let targetUrl := targetUrlOf items next
        { nextIndex := next
          wallpaper := if targetUrl ≠ "" then targetUrl else customWallpaper
          setCookie := some (cookieStr next) }
      else
        { nextIndex := 0, wallpaper := customWallpaper
          setCookie := some (cookieStr 0) }
    | _ =>
      { nextIndex := 0, wallpaper := customWallpaper
        setCookie := some (cookieStr 0) }
  else
    { nextIndex := 0, wallpaper := customWallpaper, setCookie := none }

/-! ### URL sanitizer and HTML escaping (lines 172–198) -/

/-- Per-character HTML escaping; the five sequential `replace` calls of
`escapeHTML` are equivalent to this simultaneous map because none of
the later-replaced characters occurs in an earlier replacement. -/
def escapeChar (c : Char) : String :=
  if c = Char.ofNat 38 then "&amp;"        -- ampersand
  else if c = Char.ofNat 60 then "&lt;"    -- less-than
  else if c = Char.ofNat 62 then "&gt;"    -- greater-than
  else if c = Char.ofNat 34 then "&quot;"  -- double quote
  else if c = Char.ofNat 39 then "&#39;"   -- single quote
  else String.singleton c

/-- `escapeHTML` from `functions/index.js`. -/
def escapeHTML (s : String) : String :=
  if s = "" then "" else String.join (s.toList.map escapeChar)

/-- Scheme body characters after the initial letter. -/
def takeSchemeRest : List Char → List Char × List Char
  | [] => ([], [])
  | c :: rest =>
    if c.isAlpha || c.isDigit || c = '+' || c = '-' || c = '.' then
      let (a, b) := takeSchemeRest rest
      (c :: a, b)
    else ([], c :: rest)

/-- The URL scheme of a char list, when it has one: a letter followed
by letters/digits/`+`/`-`/`.` and a colon. -/
def extractSchemeList : List Char → Option String
  | [] => none
  | c :: rest =>
    if c.isAlpha then
      match takeSchemeRest rest with
      | (more, after) =>
        match after with
        | colon :: _ => if colon = ':' then some (String.mk (c :: more)) else none
        | [] => none
    else none

/-- The regex test `/^https?:\/\//i`. -/
def hasHttpSlashes (s : String) : Bool :=
  startsWithStr (lowerStr s) "http://" || startsWithStr (lowerStr s) "https://"

/-! ### The platform URL parser (`new URL`)

`sanitizeUrlWith` below is the literal mirror of `sanitizeUrl` from
`functions/index.js`, with the platform's `new URL` abstracted as a
`parse` parameter (`none` models a thrown `TypeError`).  The only
property of the platform the proofs rely on is its serialization
guarantee that a parsed `href` begins with the parsed `protocol`.
`whatwgParse` is an executable model of `new URL` used for the
concrete instances: it implements the WHATWG input preprocessing
(leading/trailing C0-control-or-space stripping, global removal of
ASCII tab and newline), the scheme grammar, and for the special
`http`/`https` schemes the authority split (slashes skipped, userinfo
before the last `@` dropped, host before `:`), failing on an empty or
forbidden-character host.  Serialization is approximate (host
lower-cased, a `/` path ensured; percent/IDNA/port normalization are
not modelled) and a non-special scheme is modelled as always parsing —
observably equivalent through the sanitizer, which rejects every
non-http protocol while the fallback regex cannot match a string whose
scheme is not `http`/`https`. -/

/-- ASCII tab and newline, removed anywhere in the input by the
WHATWG parser. -/
def isTabOrNewline (c : Char) : Bool :=
  c = '\t' || c = '\n' || c = '\r'

/-- C0 controls and space, removed from the ends of the input by the
WHATWG parser. -/
def isC0OrSpace (c : Char) : Bool :=
  c.toNat ≤ 32

/-- The WHATWG URL parser's input preprocessing. -/
def urlPreprocess (cs : List Char) : List Char :=
  (((cs.dropWhile isC0OrSpace).reverse.dropWhile isC0OrSpace).reverse).filter
    (fun c => !(isTabOrNewline c))

/-- The two fields of a parsed URL the sanitizer reads. -/
structure ParsedUrl where
  protocol : String
  href : String
deriving DecidableEq

/-- Forbidden host code points (the separators are already consumed by
the authority split). -/
def isForbiddenHostChar (c : Char) : Bool :=
  c.toNat = 0 || c = ' ' || c = '<' || c = '>' || c = '[' || c = ']' ||
  c = '^' || c = '|'

/-- Authority parsing for the special `http`/`https` schemes: the host,
the retained port part, and the path/query/fragment remainder.  Fails
(`none`, i.e. `new URL` throws) for an empty host or a forbidden host
character. -/
def specialHost (rest : List Char) : Option (List Char × List Char × List Char) :=
  let afterSlashes := rest.dropWhile (fun c => c = '/' || c = '\\')
  let authority := afterSlashes.takeWhile
    (fun c => !(c = '/' || c = '\\' || c = '?' || c = '#'))
  let afterAuthority := afterSlashes.drop authority.length
  let hostPort := (authority.reverse.takeWhile (fun c => c ≠ '@')).reverse
  let host := hostPort.takeWhile (fun c => c ≠ ':')
  let port := hostPort.drop host.length
  if host.isEmpty || host.any isForbiddenHostChar then none
  else
    let pathEtc :=
      if afterAuthority.isEmpty then ['/']
      else if afterAuthority.headD ' ' = '?' || afterAuthority.headD ' ' = '#' then
        '/' :: afterAuthority
      else afterAuthority
    some (host, port, pathEtc)

/-- Executable model of the platform `new URL` (see the section
comment for its scope). -/
def whatwgParse (s : String) : Option ParsedUrl :=
  match extractSchemeList (urlPreprocess s.toList) with
  | none => none
  | some sch =>
    if lowerStr sch = "http" ∨ lowerStr sch = "https" then
      match specialHost ((urlPreprocess s.toList).drop (sch.length + 1)) with
      | none => none
      | some hp =>
        some { protocol := lowerStr sch ++ ":"
               href := (lowerStr sch ++ ":") ++
                 ("//" ++ (String.mk (hp.1.map Char.toLower) ++
                   (String.mk hp.2.1 ++ String.mk hp.2.2))) }
    else
      some { protocol := lowerStr sch ++ ":"
             href := (lowerStr sch ++ ":") ++
               String.mk ((urlPreprocess s.toList).drop (sch.length + 1)) }

/-- `sanitizeUrl` from `functions/index.js`, over an abstract platform
parser: empty/blank input yields `""`; a parse success returns `""`
unless the protocol is exactly `http:`/`https:`, in which case the
parsed href is returned; a parse failure falls back to the
`/^https?:\/\//i` test on the trimmed input. -/
def sanitizeUrlWith (parse : String → Option ParsedUrl) (url : String) : String :=
  if url = "" then ""
  else
    let trimmed := jsTrim url
    if trimmed = "" then ""
    else
      match parse trimmed with
      | some parsed =>
        if parsed.protocol ≠ "http:" ∧ parsed.protocol ≠ "https:" then ""
        else parsed.href
      | none =>
        if hasHttpSlashes trimmed then trimmed else ""

/-- The sanitizer with the modelled platform parser. -/
def sanitizeUrl (url : String) : String :=
  sanitizeUrlWith whatwgParse url

/-! ### Site card rendering (lines 462–526) -/

/-- The per-card values computed by the grid renderer that decide how
a site's url and logo are emitted. -/
structure CardParts where
  hrefValue : String
  hasValidUrl : Bool
  dataUrlAttr : String
  logoUrl : String
  iconHtml : String
  copyBtnDisabled : Bool
deriving DecidableEq

/-- `(rawName.trim().charAt(0) || '站').toUpperCase()` through
`escapeHTML`. -/
def cardInitialOf (site : HomeSite) : String :=
  let rawName := if site.name = "" then "未命名" else site.name
  escapeHTML (match (jsTrim rawName).toList with
    | [] => "站"
    | c :: _ => String.mk [c.toUpper])

/-- The `img` branch of the card icon (line 511). -/
def imgIconHtml (eLogo safeName : String) : String :=
  s!"<img src=\"{eLogo}\" alt=\"{safeName}\" class=\"w-10 h-10 rounded-lg object-cover bg-gray-100\">"

/-- The initial-letter `div` branch of the card icon (line 512). -/
def initialIconHtml (cardInitial : String) : String :=
  s!"<div class=\"w-10 h-10 rounded-lg bg-primary-600 flex items-center justify-center text-white font-semibold text-lg shadow-inner\">{cardInitial}</div>"

/-- The card computation for one site: `sanitizeUrl(site.url)` drives
the link (`href`, `data-url`, copy button), `sanitizeUrl(site.logo)`
drives the icon, which is an `img` tag only for a non-empty sanitized
logo and the initial-letter `div` otherwise. -/
def siteCardOf (site : HomeSite) : CardParts :=
  let rawName := if site.name = "" then "未命名" else site.name
  let normalizedUrl := sanitizeUrl site.url
  let hrefValue := escapeHTML (if normalizedUrl ≠ "" then normalizedUrl else "#")
  let dataUrlAttr := escapeHTML normalizedUrl
  let logoUrl := sanitizeUrl (site.logo.getD "")
  let safeName := escapeHTML rawName
  let hasValidUrl := normalizedUrl ≠ ""
  let iconHtml :=
    if logoUrl ≠ "" then imgIconHtml (escapeHTML logoUrl) safeName
    else initialIconHtml (cardInitialOf site)
  { hrefValue := hrefValue
    hasValidUrl := hasValidUrl
    dataUrlAttr := dataUrlAttr
    logoUrl := logoUrl
    iconHtml := iconHtml
    copyBtnDisabled := !hasValidUrl }

/-! ### Spec-side notion of URL well-formedness -/

/-- The host part of what follows the `://` separator: characters up
to the first `/`, `?` or `#`. -/
def hostPart (s : String) : String :=
  String.mk (s.toList.takeWhile (fun c => c ≠ '/' && c ≠ '?' && c ≠ '#'))

/-- Modelled from the spec (§4.2 Rendering: a sanitizer "that accepts
only well-formed `http`/`https` absolute URLs"): an http or https
scheme, the `://` separator, and a non-empty host. -/
def wellFormedAbsHttpUrl (s : String) : Bool :=
  let t := lowerStr (jsTrim s)
  (startsWithStr t "http://" && hostPart (String.mk (t.toList.drop 7)) ≠ "") ||
  (startsWithStr t "https://" && hostPart (String.mk (t.toList.drop 8)) ≠ "")

/-- The scheme condition the sanitizer actually enforces: the string
starts (case-insensitively) with `http:` or `https:`. -/
def carriesHttpScheme (s : String) : Bool :=
  startsWithStr (lowerStr s) "http:" || startsWithStr (lowerStr s) "https:"

/-! ### Helper lemmas -/

theorem carries_of_prefix_http (u : String)
    (h : ("http:".toList) <+: (lowerStr u).toList) :
    carriesHttpScheme u = true := by
  unfold carriesHttpScheme startsWithStr
  rw [List.isPrefixOf_iff_prefix.mpr h]
  simp

theorem carries_of_prefix_https (u : String)
    (h : ("https:".toList) <+: (lowerStr u).toList) :
    carriesHttpScheme u = true := by
  unfold carriesHttpScheme startsWithStr
  rw [List.isPrefixOf_iff_prefix.mpr h]
  simp

theorem carries_of_hasHttpSlashes (u : String) (h : hasHttpSlashes u = true) :
    carriesHttpScheme u = true := by
  unfold hasHttpSlashes startsWithStr at h
  rcases Bool.or_eq_true_iff.mp h with h1 | h1
  · refine carries_of_prefix_http u ?_
    refine List.IsPrefix.trans ?_ (List.isPrefixOf_iff_prefix.mp h1)
    decide
  · refine carries_of_prefix_https u ?_
    refine List.IsPrefix.trans ?_ (List.isPrefixOf_iff_prefix.mp h1)
    decide

theorem startsWith_append (a b : String) : startsWithStr (a ++ b) a = true := by
  unfold startsWithStr
  rw [List.isPrefixOf_iff_prefix]
  refine ⟨b.toList, ?_⟩
  cases a with
  | mk da =>
    cases b with
    | mk db => rfl

/-- Lower-casing preserves the starts-with relation. -/
theorem lower_startsWith (u p : String) (h : startsWithStr u p = true) :
    startsWithStr (lowerStr u) (lowerStr p) = true := by
  unfold startsWithStr at h ⊢
  rw [List.isPrefixOf_iff_prefix] at h ⊢
  obtain ⟨t, ht⟩ := h
  refine ⟨t.map Char.toLower, ?_⟩
  show p.toList.map Char.toLower ++ t.map Char.toLower =
    u.toList.map Char.toLower
  rw [← List.map_append, ht]

theorem carries_of_protocol_http (u : String)
    (h : startsWithStr u "http:" = true) : carriesHttpScheme u = true := by
  have h2 := lower_startsWith u "http:" h
  have h3 : lowerStr "http:" = "http:" := by decide
  rw [h3] at h2
  unfold carriesHttpScheme
  rw [h2]
  simp

theorem carries_of_protocol_https (u : String)
    (h : startsWithStr u "https:" = true) : carriesHttpScheme u = true := by
  have h2 := lower_startsWith u "https:" h
  have h3 : lowerStr "https:" = "https:" := by decide
  rw [h3] at h2
  unfold carriesHttpScheme
  rw [h2]
  simp

/-- The modelled platform parser satisfies the WHATWG serialization
guarantee: a parsed `href` begins with the parsed `protocol`. -/
theorem whatwgParse_href_protocol (s : String) (p : ParsedUrl)
    (h : whatwgParse s = some p) :
    startsWithStr p.href p.protocol = true := by
  unfold whatwgParse at h
  split at h
  · exact absurd h (by simp)
  · split at h
    · split at h
      · exact absurd h (by simp)
      · rw [← Option.some.inj h]
        exact startsWith_append _ _
    · rw [← Option.some.inj h]
      exact startsWith_append _ _

/-- Workhorse for the sanitizer claims: for every parser satisfying
the serialization guarantee, the sanitizer's result is either empty or
carries an http/https scheme. -/
theorem sanitizeUrlWith_empty_or_scheme (parse : String → Option ParsedUrl)
    (hcontract : ∀ s p, parse s = some p →
      startsWithStr p.href p.protocol = true) (s : String) :
    sanitizeUrlWith parse s = "" ∨
      carriesHttpScheme (sanitizeUrlWith parse s) = true := by
  by_cases hs : s = ""
  · left
    simp [sanitizeUrlWith, hs]
  · by_cases ht : jsTrim s = ""
    · left
      simp [sanitizeUrlWith, hs, ht]
    · cases hp : parse (jsTrim s) with
      | some parsed =>
        have hval : sanitizeUrlWith parse s =
            if parsed.protocol ≠ "http:" ∧ parsed.protocol ≠ "https:" then ""
            else parsed.href := by
          simp only [sanitizeUrlWith]
          rw [if_neg hs, if_neg ht, hp]
        by_cases hproto : parsed.protocol ≠ "http:" ∧ parsed.protocol ≠ "https:"
        · left
          rw [hval, if_pos hproto]
        · right
          rw [hval, if_neg hproto]
          have hcon := hcontract _ _ hp
          rcases Decidable.not_and_iff_or_not.mp hproto with hcase | hcase
          · rw [Decidable.not_not.mp hcase] at hcon
            exact carries_of_protocol_http _ hcon
          · rw [Decidable.not_not.mp hcase] at hcon
            exact carries_of_protocol_https _ hcon
      | none =>
        have hval : sanitizeUrlWith parse s =
            if hasHttpSlashes (jsTrim s) then jsTrim s else "" := by
          simp only [sanitizeUrlWith]
          rw [if_neg hs, if_neg ht, hp]
        by_cases hh : hasHttpSlashes (jsTrim s) = true
        · right
          rw [hval, if_pos hh]
          exact carries_of_hasHttpSlashes _ hh
        · left
          rw [hval, if_neg (by simp [hh])]

/-- Unfolding of the three-level comparator into its lexicographic
meaning (the name comparison abstracted as `k`). -/
theorem catCmp_le_iff (nameCmp : String → String → Int) (a b : CatalogMeta) :
    (catCmp nameCmp a b ≤ 0) ↔
      (a.order < b.order ∨
       (a.order = b.order ∧
        (a.fallback < b.fallback ∨
         (a.fallback = b.fallback ∧ nameCmp a.name b.name ≤ 0)))) := by
  unfold catCmp
  by_cases h1 : a.order = b.order
  · by_cases h2 : a.fallback = b.fallback
    · simp only [h1, h2]
      simp
    · rw [if_neg (by simp [h1]), if_pos h2]
      constructor
      · intro h
        exact Or.inr ⟨h1, Or.inl (by omega)⟩
      · intro h
        rcases h with h | ⟨_, h⟩
        · omega
        · rcases h with h | ⟨h, _⟩
          · omega
          · exact absurd h h2
  · rw [if_pos h1]
    constructor
    · intro h
      exact Or.inl (by omega)
    · intro h
      rcases h with h | ⟨h, _⟩
      · omega
      · exact absurd h h1

theorem catCmp_le_trans (nameCmp : String → String → Int)
    (hn : ∀ x y z, nameCmp x y ≤ 0 → nameCmp y z ≤ 0 → nameCmp x z ≤ 0)
    (a b c : CatalogMeta)
    (hab : catCmp nameCmp a b ≤ 0) (hbc : catCmp nameCmp b c ≤ 0) :
    catCmp nameCmp a c ≤ 0 := by
  rw [catCmp_le_iff] at hab hbc ⊢
  rcases hab with h1 | ⟨e1, h1⟩
  · rcases hbc with h2 | ⟨e2, _⟩
    · exact Or.inl (h1.trans h2)
    · exact Or.inl (by omega)
  · rcases hbc with h2 | ⟨e2, h2⟩
    · exact Or.inl (by omega)
    · refine Or.inr ⟨e1.trans e2, ?_⟩
      rcases h1 with f1 | ⟨g1, n1⟩
      · rcases h2 with f2 | ⟨g2, _⟩
        · exact Or.inl (f1.trans f2)
        · exact Or.inl (by omega)
      · rcases h2 with f2 | ⟨g2, n2⟩
        · exact Or.inl (by omega)
        · exact Or.inr ⟨g1.trans g2, hn _ _ _ n1 n2⟩

theorem catCmp_le_total (nameCmp : String → String → Int)
    (hn : ∀ x y, nameCmp x y ≤ 0 ∨ nameCmp y x ≤ 0)
    (a b : CatalogMeta) :
    catCmp nameCmp a b ≤ 0 ∨ catCmp nameCmp b a ≤ 0 := by
  rw [catCmp_le_iff, catCmp_le_iff]
  rcases lt_trichotomy a.order b.order with h | h | h
  · exact Or.inl (Or.inl h)
  · rcases lt_trichotomy a.fallback b.fallback with g | g | g
    · exact Or.inl (Or.inr ⟨h, Or.inl g⟩)
    · rcases hn a.name b.name with k | k
      · exact Or.inl (Or.inr ⟨h, Or.inr ⟨g, k⟩⟩)
      · exact Or.inr (Or.inr ⟨h.symm, Or.inr ⟨g.symm, k⟩⟩)
    · exact Or.inr (Or.inr ⟨h.symm, Or.inl g⟩)
  · exact Or.inr (Or.inl h)

/-! ### Selection helper lemmas -/

theorem resolvedCatalog_all (catalogs : List String) (dc : Option String) :
    resolvedCatalog catalogs (some "all") dc = "" := by
  have hall : isExplicitAll (some "all") = true := by decide
  unfold resolvedCatalog
  cases htr : truthyStr dc with
  | none => simp [hall]
  | some s => simp [hall]

/-! ### Concrete example data (used by witnesses and counterexamples) -/

/-- Trivial stand-in for the locale collation; never consulted when an
earlier sort key differs. -/
def cmp0 : String → String → Int := fun _ _ => 0

def exSiteA : HomeSite :=
  { id := 1, name := "SiteA", url := "https://a.example/", logo := none
    desc := none, catelog_id := 1, sort_order := some 1, is_private := 0
    create_time := 1, catelog := "A" }

def exSiteB : HomeSite :=
  { id := 2, name := "SiteB", url := "https://b.example/", logo := none
    desc := none, catelog_id := 2, sort_order := some 2, is_private := 0
    create_time := 2, catelog := "B" }

def exSites : List HomeSite := [exSiteA, exSiteB]

/-- Category table `{A: order 2}`, `{B: order 1}` of the C5 example. -/
def exCatRows : List CategoryRow :=
  [{ id := 1, catelog := "A", is_private := 0, sort_order := some 2 },
   { id := 2, catelog := "B", is_private := 0, sort_order := some 1 }]

def exRow1 : SiteRow :=
  { id := 1, name := "N1", url := "https://a.example/", logo := none
    desc := none, catelog_id := 1, catelog_name := "A"
    sort_order := some 1, is_private := 0, create_time := 1 }

def exRowPriv : SiteRow :=
  { id := 2, name := "P", url := "https://p.example/", logo := none
    desc := none, catelog_id := 1, catelog_name := "A"
    sort_order := some 2, is_private := 1, create_time := 2 }

def exCat1 : CategoryRow :=
  { id := 1, catelog := "A", is_private := 0, sort_order := some 1 }

def exCatPriv : CategoryRow :=
  { id := 2, catelog := "Priv", is_private := 1, sort_order := some 2 }

def exBodyPriv : PostBody :=
  { name := some "Y", url := some "https://y.example/"
    logo := some "https://l.example/l.png", desc := none
    catelogId := some 2, sort_order := some 3, is_private := false }

def exBodyDup : PostBody :=
  { name := some "X", url := some " https://a.example/ ", logo := none
    desc := none, catelogId := some 1, sort_order := none
    is_private := false }

def badHostSite : HomeSite :=
  { id := 3, name := "Bad", url := "http://", logo := none, desc := none
    catelog_id := 1, sort_order := some 1, is_private := 0
    create_time := 3, catelog := "A" }

def jsAlertSite : HomeSite :=
  { id := 4, name := "Evil", url := "javascript:alert(1)"
    logo := some "javascript:alert(1)", desc := none, catelog_id := 1
    sort_order := some 1, is_private := 0, create_time := 4
    catelog := "A" }

/-! ### Claim C1 -/

/-- Claim C1 (as stated) is false: at a request for the nonexistent
catalog `C` over categories `A`/`B`, the `currentCatalog` variable is
set to the first sorted catalog `B`, but the rendered page is NOT the
first catalog's listing — `currentSites` is the full unfiltered site
list and the heading is the all-sites heading, i.e. the unresolvable
selection falls back to the `all` listing. -/
theorem c1_missing_catalog_counterexample :
    (homeView cmp0 exSites exCatRows (some "C") none).catalogExists = false ∧
    (homeView cmp0 exSites exCatRows (some "C") none).catalogs = ["B", "A"] ∧
    (homeView cmp0 exSites exCatRows (some "C") none).currentCatalog = some "B" ∧
    (homeView cmp0 exSites exCatRows (some "C") none).currentSites ≠
      exSites.filter (fun s => catName s == "B") ∧
    (homeView cmp0 exSites exCatRows (some "C") none).currentSites = exSites ∧
    (homeView cmp0 exSites exCatRows (some "C") none).heading =
      "全部收藏 · 2 个网站" := by
  decide

/-- Claim C1 (amended): when the resolved catalog name does not exist
among the known catalogs, the handler sets its `currentCatalog`
variable to the first catalog in sorted order, but the rendered page
shows the unfiltered all-category listing: every loaded site is
rendered and the heading is the all-sites heading. -/
theorem c1_missing_catalog_amended (nameCmp : String → String → Int)
    (sites : List HomeSite) (catRows : List CategoryRow)
    (catalogParam displayCategory : Option String)
    (h : catalogExistsOf (catalogNames nameCmp sites catRows)
      catalogParam displayCategory = false) :
    (homeView nameCmp sites catRows catalogParam displayCategory).currentCatalog =
      (catalogNames nameCmp sites catRows).head? ∧
    (homeView nameCmp sites catRows catalogParam displayCategory).currentSites =
      sites ∧
    (homeView nameCmp sites catRows catalogParam displayCategory).heading =
      s!"全部收藏 · {sites.length} 个网站" := by
  refine ⟨?_, ?_, ?_⟩
  · simp [homeView, currentCatalogOf, h]
  · simp [homeView, currentSitesOf, h]
  · simp [homeView, headingOf, h]

/-- Witness for the amended C1 theorem at the concrete example. -/
theorem c1_missing_catalog_witness :
    catalogExistsOf (catalogNames cmp0 exSites exCatRows) (some "C") none
        = false ∧
    (homeView cmp0 exSites exCatRows (some "C") none).currentSites = exSites :=
  ⟨by decide,
   (c1_missing_catalog_amended cmp0 exSites exCatRows (some "C") none
     (by decide)).2.1⟩

/-! ### Claim C2 -/

/-- Claim C2: a site row with `is_private = 1` never appears for an
unauthenticated caller — neither in the GET list operation (for every
catalog/catalogId/keyword/pagination combination) nor in the homepage
data load (of which the rendered `currentSites` is always a subset) —
while for an admin caller the filters ignore the privacy flag and
every joined private row is loaded. -/
theorem c2_private_rows_hidden :
    (∀ (db : List SiteRow) (catalogId : Option Nat)
       (catalog keyword : Option String) (page pageSize : Int) (r : SiteRow),
       r ∈ (onRequestGet db false catalogId catalog keyword page pageSize).data →
       r.is_private ≠ 1) ∧
    (∀ (db : List SiteRow) (cats : List CategoryRow) (s : HomeSite),
       s ∈ loadSites db cats false → s.is_private ≠ 1) ∧
    (∀ (nameCmp : String → String → Int) (sites : List HomeSite)
       (catRows : List CategoryRow)
       (catalogParam displayCategory : Option String) (s : HomeSite),
       s ∈ (homeView nameCmp sites catRows catalogParam
         displayCategory).currentSites → s ∈ sites) ∧
    (∀ (catalogId : Option Nat) (catalog keyword : Option String)
       (s : SiteRow) (b : Nat),
       matchesWhere 1 catalogId catalog keyword s =
         matchesWhere 1 catalogId catalog keyword { s with is_private := b }) ∧
    (∀ (db : List SiteRow) (cats : List CategoryRow) (s : SiteRow)
       (c : CategoryRow),
       s ∈ db → c ∈ cats → c.id = s.catelog_id →
       joinRow s c ∈ loadSites db cats true) := by
  refine ⟨?_, ?_, ?_, ?_, ?_⟩
  · intro db catalogId catalog keyword page pageSize r hmem
    simp only [onRequestGet] at hmem
    have hr : r ∈ db.filter
        (matchesWhere 0 catalogId (truthyStr catalog) (truthyStr keyword)) := by
      rw [← List.mem_insertionSort (fun a b => siteLe a b = true)]
      split at hmem
      · exact List.mem_of_mem_drop hmem
      · exact List.mem_of_mem_drop (List.mem_of_mem_take hmem)
    have hw := (List.mem_filter.mp hr).2
    simp only [matchesWhere, Bool.and_eq_true, Bool.or_eq_true] at hw
    rcases hw.1.1 with h | h
    · intro hc
      rw [hc] at h
      simp at h
    · simp at h
  · intro db cats s hmem
    simp only [loadSites] at hmem
    rw [List.mem_insertionSort] at hmem
    have hw := (List.mem_filter.mp hmem).2
    simp only [Bool.or_eq_true] at hw
    rcases hw with h | h
    · intro hc
      rw [hc] at h
      simp at h
    · simp at h
  · intro nameCmp sites catRows catalogParam displayCategory s hmem
    simp only [homeView, currentSitesOf] at hmem
    split at hmem
    · exact (List.mem_filter.mp hmem).1
    · exact hmem
  · intro catalogId catalog keyword s b
    simp [matchesWhere]
  · intro db cats s c hs hc hid
    simp only [loadSites]
    rw [List.mem_insertionSort, List.mem_filter]
    refine ⟨?_, by simp⟩
    rw [List.mem_flatMap]
    refine ⟨s, hs, ?_⟩
    rw [List.mem_map]
    refine ⟨c, ?_, rfl⟩
    rw [List.mem_filter]
    exact ⟨hc, by simp [hid]⟩

/-- Witness for C2: the private example row is filtered for the
anonymous caller and loaded (joined) for the admin caller. -/
theorem c2_private_rows_hidden_witness :
    exRow1.is_private ≠ 1 ∧
    joinRow exRowPriv exCat1 ∈ loadSites [exRow1, exRowPriv] [exCat1] true :=
  ⟨c2_private_rows_hidden.1 [exRow1, exRowPriv] none none none 1 10 exRow1
     (by decide),
   c2_private_rows_hidden.2.2.2.2 [exRow1, exRowPriv] [exCat1] exRowPriv exCat1
     (by decide) (by decide) (by decide)⟩

/-! ### Claim C3 -/

/-- Claim C3: when the `catelogId` of a valid POST create request
resolves to a category row with `is_private = 1`, the inserted site
row has `is_private = 1` regardless of the requested value; when the
category is not private, the stored value is the caller's requested
value coerced to 0/1. -/
theorem c3_private_category_forces_private (db : List SiteRow)
    (cats : List CategoryRow) (iconAPIEnv : Option String) (body : PostBody)
    (newId newTime : Nat) (cat : CategoryRow)
    (hname : jsTrim (body.name.getD "") ≠ "")
    (hurl : jsTrim (body.url.getD "") ≠ "")
    (hcid : body.catelogId.getD 0 ≠ 0)
    (hnodup : (db.find? (fun s => s.url == jsTrim (body.url.getD ""))).isSome
      = false)
    (hcat : cats.find? (fun c => c.id == body.catelogId.getD 0) = some cat) :
    (cat.is_private = 1 →
      ∃ row, (onRequestPost db cats true iconAPIEnv body newId newTime).1 =
          .created row ∧
        row.is_private = 1 ∧
        (onRequestPost db cats true iconAPIEnv body newId newTime).2 =
          db ++ [row]) ∧
    (cat.is_private ≠ 1 →
      ∃ row, (onRequestPost db cats true iconAPIEnv body newId newTime).1 =
          .created row ∧
        row.is_private = (if body.is_private then 1 else 0) ∧
        (onRequestPost db cats true iconAPIEnv body newId newTime).2 =
          db ++ [row]) := by
  constructor
  · intro hp
    simp only [onRequestPost, hcat]
    simp [hname, hurl, hcid, hnodup, hp]
  · intro hp
    simp only [onRequestPost, hcat]
    simp [hname, hurl, hcid, hnodup, hp]

/-- Witness for C3: inserting under the private category with
`is_private: false` in the body stores a private row. -/
theorem c3_private_category_witness :
    ∃ row,
      (onRequestPost [exRow1] [exCat1, exCatPriv] true none exBodyPriv 9 9).1 =
        .created row ∧
      row.is_private = 1 ∧
      (onRequestPost [exRow1] [exCat1, exCatPriv] true none exBodyPriv 9 9).2 =
        [exRow1] ++ [row] :=
  (c3_private_category_forces_private [exRow1] [exCat1, exCatPriv] none
    exBodyPriv 9 9 exCatPriv (by decide) (by decide) (by decide) (by decide)
    (by decide)).1 (by decide)

/-! ### Claim C4 -/

/-- Claim C4: a valid POST create request whose trimmed url already
exists among the stored sites returns the 409 duplicate-conflict
outcome and leaves the store unchanged. -/
theorem c4_duplicate_url_conflict (db : List SiteRow)
    (cats : List CategoryRow) (iconAPIEnv : Option String) (body : PostBody)
    (newId newTime : Nat)
    (hname : jsTrim (body.name.getD "") ≠ "")
    (hurl : jsTrim (body.url.getD "") ≠ "")
    (hcid : body.catelogId.getD 0 ≠ 0)
    (hdup : (db.find? (fun s => s.url == jsTrim (body.url.getD ""))).isSome
      = true) :
    (onRequestPost db cats true iconAPIEnv body newId newTime).1 =
      .conflict "该 URL 已存在，请勿重复添加" ∧
    (onRequestPost db cats true iconAPIEnv body newId newTime).2 = db := by
  constructor <;> simp [onRequestPost, hname, hurl, hcid, hdup]

/-- Witness for C4 at a concrete store and request. -/
theorem c4_duplicate_url_witness :
    (onRequestPost [exRow1] [exCat1] true none exBodyDup 9 9).1 =
      .conflict "该 URL 已存在，请勿重复添加" ∧
    (onRequestPost [exRow1] [exCat1] true none exBodyDup 9 9).2 = [exRow1] :=
  c4_duplicate_url_conflict [exRow1] [exCat1] none exBodyDup 9 9
    (by decide) (by decide) (by decide) (by decide)

/-! ### Claim C5 -/

/-- Claim C5: the category menu order is the stable sort of the
per-category records by the three-level comparator — declared category
order if present else the per-site minimum (this is how
`catalogsWithMeta` builds `order`), ties broken by the per-site
minimum, further ties by the locale name comparison `nameCmp` — being
a pure function of those inputs: the sorted list is a permutation of
the metadata and is pairwise-sorted by the comparator; at the concrete
example `{A: order 2}`, `{B: order 1}` with sites referencing only A
and B, the menu lists B before A. -/
theorem c5_category_ordering (nameCmp : String → String → Int)
    (htrans : ∀ x y z, nameCmp x y ≤ 0 → nameCmp y z ≤ 0 → nameCmp x z ≤ 0)
    (htotal : ∀ x y, nameCmp x y ≤ 0 ∨ nameCmp y x ≤ 0)
    (sites : List HomeSite) (catRows : List CategoryRow) :
    (sortedCatalogs nameCmp sites catRows).Perm
      (catalogsWithMeta sites catRows) ∧
    List.Sorted (fun a b => catCmp nameCmp a b ≤ 0)
      (sortedCatalogs nameCmp sites catRows) ∧
    catalogNames cmp0 exSites exCatRows = ["B", "A"] := by
  refine ⟨List.perm_insertionSort _ _, ?_, by decide⟩
  letI : IsTrans CatalogMeta (fun a b => catCmp nameCmp a b ≤ 0) :=
    ⟨catCmp_le_trans nameCmp htrans⟩
  letI : IsTotal CatalogMeta (fun a b => catCmp nameCmp a b ≤ 0) :=
    ⟨catCmp_le_total nameCmp htotal⟩
  exact List.sorted_insertionSort _ _

/-- Witness for C5 with the trivial collation. -/
theorem c5_category_ordering_witness :
    List.Sorted (fun a b => catCmp cmp0 a b ≤ 0)
      (sortedCatalogs cmp0 exSites exCatRows) ∧
    catalogNames cmp0 exSites exCatRows = ["B", "A"] :=
  ⟨(c5_category_ordering cmp0 (fun _ _ _ _ _ => le_refl 0)
      (fun _ _ => Or.inl (le_refl 0)) exSites exCatRows).2.1,
   (c5_category_ordering cmp0 (fun _ _ _ _ _ => le_refl 0)
      (fun _ _ => Or.inl (le_refl 0)) exSites exCatRows).2.2⟩

/-! ### Claim C6 -/

/-- Claim C6: with `pageSize ≥ 1000` the GET list operation reports
`total = rows_returned + offset` (the count query is skipped); with
`pageSize < 1000` the total is the count of all rows matching the same
WHERE clause; in particular with `pageSize = 1000`, `offset = 20` and
5 rows returned the reported total is 25 whatever the real count. -/
theorem c6_pagesize_total (db : List SiteRow) (auth : Bool)
    (catalogId : Option Nat) (catalog keyword : Option String)
    (page pageSize : Int) :
    (pageSize ≥ 1000 →
      (onRequestGet db auth catalogId catalog keyword page pageSize).total =
        ((onRequestGet db auth catalogId catalog keyword page
          pageSize).data.length : Int) + (page - 1) * pageSize) ∧
    (pageSize < 1000 →
      (onRequestGet db auth catalogId catalog keyword page pageSize).total =
        ((db.filter (matchesWhere (if auth then 1 else 0) catalogId
          (truthyStr catalog) (truthyStr keyword))).length : Int)) ∧
    (∀ countTotal : Nat, computeTotal 1000 20 5 countTotal = 25) := by
  refine ⟨?_, ?_, ?_⟩
  · intro h
    simp [onRequestGet, computeTotal, h]
  · intro h
    simp [onRequestGet, computeTotal, not_le.mpr h]
  · intro countTotal
    norm_num [computeTotal]

/-- Witness for C6 at a concrete store. -/
theorem c6_pagesize_total_witness :
    (onRequestGet [exRow1, exRowPriv] true none none none 1 1000).total =
      ((onRequestGet [exRow1, exRowPriv] true none none none 1
        1000).data.length : Int) + (1 - 1) * 1000 ∧
    computeTotal 1000 20 5 777 = 25 :=
  ⟨(c6_pagesize_total [exRow1, exRowPriv] true none none none 1 1000).1
     (by norm_num),
   (c6_pagesize_total [exRow1, exRowPriv] true none none none 1 1000).2.2 777⟩

/-! ### Claim C7 -/

/-- Claim C7: with the random-wallpaper setting enabled and a
non-empty feed, the renderer advances the cookie index (absent or
unparseable cookie read as −1) to `(current + 1) mod feed length`,
uses the image url at the new index as the custom wallpaper, and sets
the new index back as a cookie with `Max-Age=31536000`; with the
setting disabled no wallpaper cookie is set. -/
theorem c7_wallpaper_rotation (cookieHeader customWallpaper : String)
    (items : List FeedItem) (hne : items ≠ [])
    (htu : targetUrlOf items
      ((currentIdx cookieHeader + 1).toNat % items.length) ≠ "") :
    (wallpaperStep true cookieHeader (.arr items) customWallpaper).nextIndex =
      (currentIdx cookieHeader + 1).toNat % items.length ∧
    (wallpaperStep true cookieHeader (.arr items) customWallpaper).wallpaper =
      targetUrlOf items ((currentIdx cookieHeader + 1).toNat % items.length) ∧
    (wallpaperStep true cookieHeader (.arr items) customWallpaper).setCookie =
      some
        s!"wallpaper_index={(currentIdx cookieHeader + 1).toNat % items.length}; Path=/; Max-Age=31536000; SameSite=Lax" ∧
    (∀ ch, parseWallpaperCookie ch = none → currentIdx ch = -1) ∧
    (∀ (ch : String) (f : FetchOutcome) (cw : String),
      (wallpaperStep false ch f cw).setCookie = none) := by
  have hlen : 0 < items.length := List.length_pos.mpr hne
  refine ⟨?_, ?_, ?_, ?_, ?_⟩
  · simp [wallpaperStep, hlen]
  · simp [wallpaperStep, hlen, htu]
  · simp [wallpaperStep, hlen, cookieStr]
  · intro ch h
    simp [currentIdx, h]
  · intro ch f cw
    simp [wallpaperStep]

/-- Witness for C7: cookie 0 over a two-item feed advances to index 1
and uses that image. -/
theorem c7_wallpaper_rotation_witness :
    (wallpaperStep true "wallpaper_index=0"
      (.arr [⟨"a", ""⟩, ⟨"b", ""⟩]) "old").wallpaper = "b" :=
  ((c7_wallpaper_rotation "wallpaper_index=0" "old" [⟨"a", ""⟩, ⟨"b", ""⟩]
    (by decide) (by decide)).2.1).trans (by decide)

/-! ### Claim C8 -/

/-- Claim C8 (as stated) is false: `http://` is not a well-formed
absolute http/https URL (it has no host), yet the sanitizer returns it
unchanged — via the catch-branch regex in the source — and the card
for a site with that url emits it as the `href` with an enabled link. -/
theorem c8_sanitizer_counterexample :
    wellFormedAbsHttpUrl "http://" = false ∧
    sanitizeUrl "http://" = "http://" ∧
    (siteCardOf badHostSite).hrefValue = "http://" ∧
    (siteCardOf badHostSite).hasValidUrl = true := by
  decide

/-- Claim C8 (amended): the sanitizer never lets a non-http(s) URL
through — for every platform parser honouring the WHATWG guarantee
that a parsed href begins with its protocol, and in particular for the
modelled parser, every sanitizer output is empty or carries an
`http:`/`https:` scheme; `javascript:alert(1)` parses with protocol
`javascript:` and sanitizes to the empty string; and every site whose
url (resp. logo) sanitizes to empty falls back to the no-link
rendering — `href` is `#`, the copy button is disabled with an empty
`data-url` — (resp. to the initial-letter icon instead of an `img`
tag).  The sanitizer does not, however, reject every value that is not
a well-formed URL: `http://` is returned via the fallback regex (the
counterexample) and a value whose tabs the parser strips, such as
`ht\ttp://evil.com`, is parsed and emitted as `http://evil.com/`. -/
theorem c8_sanitizer_amended :
    (∀ parse : String → Option ParsedUrl,
      (∀ s p, parse s = some p → startsWithStr p.href p.protocol = true) →
      ∀ s : String, sanitizeUrlWith parse s = "" ∨
        carriesHttpScheme (sanitizeUrlWith parse s) = true) ∧
    (∀ (s : String) (p : ParsedUrl), whatwgParse s = some p →
      startsWithStr p.href p.protocol = true) ∧
    (∀ s : String,
      sanitizeUrl s = "" ∨ carriesHttpScheme (sanitizeUrl s) = true) ∧
    whatwgParse "javascript:alert(1)" =
      some { protocol := "javascript:", href := "javascript:alert(1)" } ∧
    sanitizeUrl "javascript:alert(1)" = "" ∧
    (∀ site : HomeSite, sanitizeUrl site.url = "" →
      (siteCardOf site).hrefValue = "#" ∧
      (siteCardOf site).hasValidUrl = false ∧
      (siteCardOf site).dataUrlAttr = "" ∧
      (siteCardOf site).copyBtnDisabled = true) ∧
    (∀ site : HomeSite, sanitizeUrl (site.logo.getD "") = "" →
      (siteCardOf site).logoUrl = "" ∧
      (siteCardOf site).iconHtml = initialIconHtml (cardInitialOf site)) ∧
    infixOfList "<img".toList (siteCardOf jsAlertSite).iconHtml.toList
      = false ∧
    (siteCardOf jsAlertSite).hrefValue = "#" ∧
    sanitizeUrl "ht\ttp://evil.com" = "http://evil.com/" := by
  refine ⟨sanitizeUrlWith_empty_or_scheme, whatwgParse_href_protocol,
    fun s => sanitizeUrlWith_empty_or_scheme whatwgParse
      whatwgParse_href_protocol s,
    by decide, by decide, ?_, ?_, by decide, by decide, by decide⟩
  · intro site h
    refine ⟨?_, ?_, ?_, ?_⟩ <;> simp [siteCardOf, h, escapeHTML] <;> decide
  · intro site h
    refine ⟨?_, ?_⟩ <;> simp [siteCardOf, h]

/-- Witness for the amended C8 theorem: the parameterized guarantee
instantiated with the modelled parser (its contract discharged by the
theorem's own second conjunct) at `javascript:alert(1)`, and the card
fallbacks at the concrete site carrying that value. -/
theorem c8_sanitizer_amended_witness :
    (sanitizeUrlWith whatwgParse "javascript:alert(1)" = "" ∨
      carriesHttpScheme
        (sanitizeUrlWith whatwgParse "javascript:alert(1)") = true) ∧
    (siteCardOf jsAlertSite).hrefValue = "#" ∧
    (siteCardOf jsAlertSite).iconHtml = initialIconHtml
      (cardInitialOf jsAlertSite) :=
  ⟨c8_sanitizer_amended.1 whatwgParse c8_sanitizer_amended.2.1
     "javascript:alert(1)",
   (c8_sanitizer_amended.2.2.2.2.2.1 jsAlertSite (by decide)).1,
   (c8_sanitizer_amended.2.2.2.2.2.2.1 jsAlertSite (by decide)).2⟩

/-! ### Claim C9 -/

/-- Claim C9: an explicit `?catalog=all` request overrides any
configured `DISPLAY_CATEGORY` default — the resolved selection is
empty, no catalog is marked current, and the unfiltered all-category
listing with the all-sites heading is rendered. -/
theorem c9_explicit_all_overrides_default (nameCmp : String → String → Int)
    (sites : List HomeSite) (catRows : List CategoryRow)
    (displayCategory : Option String) :
    (homeView nameCmp sites catRows (some "all") displayCategory).catalogExists
      = false ∧
    (homeView nameCmp sites catRows (some "all") displayCategory).currentSites
      = sites ∧
    (homeView nameCmp sites catRows (some "all") displayCategory).heading
      = s!"全部收藏 · {sites.length} 个网站" := by
  have hres := resolvedCatalog_all (catalogNames nameCmp sites catRows)
    displayCategory
  have hex : catalogExistsOf (catalogNames nameCmp sites catRows)
      (some "all") displayCategory = false := by
    unfold catalogExistsOf
    simp [hres]
  refine ⟨?_, ?_, ?_⟩
  · simp [homeView, hex]
  · simp [homeView, currentSitesOf, hex]
  · simp [homeView, headingOf, hex]

/-! ### Claim C10 -/

/-- Claim C10: with the random-wallpaper setting enabled, a failed,
non-ok, non-array or empty feed response still sets the cookie
`wallpaper_index=0` — the rotation index is reset to 0 regardless of
the caller's previous cookie value — while the previously configured
custom wallpaper is kept for rendering. -/
theorem c10_feed_failure_resets_index (cookieHeader customWallpaper : String)
    (fetched : FetchOutcome)
    (h : fetched = .failed ∨ fetched = .notArray ∨ fetched = .arr []) :
    (wallpaperStep true cookieHeader fetched customWallpaper).setCookie =
      some "wallpaper_index=0; Path=/; Max-Age=31536000; SameSite=Lax" ∧
    (wallpaperStep true cookieHeader fetched customWallpaper).wallpaper =
      customWallpaper ∧
    (wallpaperStep true cookieHeader fetched customWallpaper).nextIndex = 0 := by
  have hc : cookieStr 0 =
      "wallpaper_index=0; Path=/; Max-Age=31536000; SameSite=Lax" := by decide
  rcases h with h | h | h <;> subst h <;>
    exact ⟨by simp [wallpaperStep, hc], by simp [wallpaperStep],
      by simp [wallpaperStep]⟩

/-- Witness for C10: a previous cookie value of 7 is reset to 0 on a
failed fetch. -/
theorem c10_feed_failure_witness :
    (wallpaperStep true "wallpaper_index=7" .failed "prev").setCookie =
      some "wallpaper_index=0; Path=/; Max-Age=31536000; SameSite=Lax" ∧
    (wallpaperStep true "wallpaper_index=7" .failed "prev").wallpaper =
      "prev" ∧
    (wallpaperStep true "wallpaper_index=7" .failed "prev").nextIndex = 0 :=
  c10_feed_failure_resets_index "wallpaper_index=7" "prev" .failed (Or.inl rfl)

end IoriNav
